import Mathlib

/-!
Verification of the schema-driven storage provisioning engine of the
metrics-hub SDK: a shallow embedding of the Zod-schema-to-PostgreSQL
compiler (`ZodSchemaParser`), the schema serializer
(`MetricsHubSchemaInstance.serializeZodType`), and the provisioning /
typed-table-operations layer (`DatabaseManager`, `TableOperationsImpl`),
together with theorems settling the frozen claims about them.

Conventions of the embedding:
- JavaScript runtime values that can appear as Zod default values or as
  payload fields are modelled by the inductive `JsValue` (a function value
  carries its source text, which is all the code inspects via
  `toString().includes(...)`).
- A Zod type tree is modelled by `ZodType`, one constructor per Zod
  `typeName` the code dispatches on, plus `zunknown` for every other Zod
  type (the code treats all of those uniformly as a fallback).
- Thrown JS exceptions are modelled with `Except String`; an HTTP call
  that throws (network failure or non-ok status) is modelled by the
  environment supplying `none` instead of a response.
-/

namespace MetricsHub

/-- JavaScript character-list helper: does `text` start with `pat`?
Models `String.prototype.startsWith` semantics on the char level. -/
def charsStartWith : List Char → List Char → Bool
  | [], _ => true
  | _ :: _, [] => false
  | p :: ps, c :: cs => p = c && charsStartWith ps cs

/-- JavaScript `text.includes(pat)`: contiguous containment of `pat` in `text`. -/
def charsContain : List Char → List Char → Bool
  | [], pat => pat.isEmpty
  | c :: rest, pat => charsStartWith pat (c :: rest) || charsContain rest pat

/-- JavaScript `s.includes(pat)`. -/
def jsIncludes (s pat : String) : Bool :=
  charsContain s.data pat.data

/-- JavaScript `s.endsWith(suffix)`. -/
def strEndsWith (s suf : String) : Bool :=
  charsStartWith suf.data.reverse s.data.reverse

/-- JavaScript `s.slice(0, -n)`: drop the last `n` characters. -/
def strDropRight (s : String) (n : Nat) : String :=
  ⟨s.data.take (s.data.length - n)⟩

/-- JavaScript `value.replace(/'/g, "''")`: double every single quote. -/
def escapeQuotes (s : String) : String :=
  ⟨s.data.foldr (fun c acc => if c = '\'' then '\'' :: '\'' :: acc else c :: acc) []⟩

/-- JavaScript runtime values as they occur in Zod defaults and payloads.
A `func` value carries its source text (`Function.prototype.toString`),
which is the only thing the code under verification inspects on it. -/
inductive JsValue where
  | null
  | str (s : String)
  | num (n : Int)
  | bool (b : Bool)
  | date (iso : String)
  | func (src : String)
  | arr (elems : List JsValue)
  | obj (fields : List (String × JsValue))
deriving Repr, BEq

/-- Zod string checks, as stored in `_def.checks` of a `ZodString`:
`max` carries the bound, `uuid` is the format check; `other` stands for
any check kind the code does not dispatch on. -/
inductive StringCheck where
  | max (value : Int)
  | uuid
  | other
deriving Repr, DecidableEq

/-- Zod number checks (`_def.checks` of a `ZodNumber`): `int`, `finite`,
and `other` for any check kind the code does not dispatch on. -/
inductive NumberCheck where
  | int
  | finite
  | other
deriving Repr, DecidableEq

/-- A Zod type tree, one constructor per `_def.typeName` the source
dispatches on.  `zdefault` stores the value returned by
`_def.defaultValue()` (the code always calls it exactly once before
branching on the result).  `zunknown` stands for every other Zod type. -/
inductive ZodType where
  | zstring (checks : List StringCheck)
  | znumber (checks : List NumberCheck)
  | zboolean
  | zdate
  | zobject (shape : List (String × ZodType))
  | zarray (element : ZodType)
  | zrecord (valueType : ZodType)
  | zenum (values : List String)
  | zliteral (value : JsValue)
  | zoptional (innerType : ZodType)
  | znullable (innerType : ZodType)
  | zdefault (defaultValue : JsValue) (innerType : ZodType)
  | zunknown
deriving Repr

/-- `ColumnDefinition` from `types/database.ts`; the PostgreSQL type is
kept as its string rendering. -/
structure ColumnDefinition where
  name : String
  type : String
  nullable : Bool
  primaryKey : Bool := false
  defaultValue : Option String := none
  unique : Bool := false
deriving Repr, DecidableEq

/-- `IndexDefinition` from `types/database.ts`. -/
structure IndexDefinition where
  name : String
  columns : List String
  unique : Bool := false
deriving Repr, DecidableEq

/-- `ConstraintDefinition` from `types/database.ts`. -/
structure ConstraintDefinition where
  name : String
  type : String
  definition : String
deriving Repr, DecidableEq

/-- `TableDefinition` from `types/database.ts`. -/
structure TableDefinition where
  name : String
  columns : List ColumnDefinition
  indexes : List IndexDefinition
  constraints : List ConstraintDefinition
deriving Repr, DecidableEq

namespace ZodSchemaParser

/-- `ZodSchemaParser.getStringType`: scan the checks in order and return
at the first `max` check with value ≤ 255 (VARCHAR) or the first `uuid`
check (UUID); TEXT when no check fires. -/
def getStringType : List StringCheck → String
  | [] => "TEXT"
  | .max v :: rest => if v ≤ 255 then "VARCHAR" else getStringType rest
  | .uuid :: _ => "UUID"
  | .other :: rest => getStringType rest

/-- `ZodSchemaParser.getNumberType`: first `int` check gives INTEGER,
first `finite` check gives NUMERIC, default NUMERIC. -/
def getNumberType : List NumberCheck → String
  | [] => "NUMERIC"
  | .int :: _ => "INTEGER"
  | .finite :: _ => "NUMERIC"
  | .other :: rest => getNumberType rest

/-- `JSON.stringify` on the modelled JS values (arrays/objects recursively;
a Date stringifies to its quoted ISO form; a function inside a structure
becomes `null`). Only the escaping of quote and backslash is modelled. -/
def jsonEscapeString (s : String) : String :=
  ⟨s.data.foldr
    (fun c acc =>
      if c = '"' then '\\' :: '"' :: acc
      else if c = '\\' then '\\' :: '\\' :: acc
      else c :: acc) []⟩

mutual

def jsonStringify : JsValue → String
  | .null => "null"
  | .str s => "\"" ++ jsonEscapeString s ++ "\""
  | .num n => toString n
  | .bool b => if b then "true" else "false"
  | .date iso => "\"" ++ iso ++ "\""
  | .func _ => "null"
  | .arr es => "[" ++ jsonStringifyList es ++ "]"
  | .obj fs => "\x7b" ++ jsonStringifyFields fs ++ "\x7d"

def jsonStringifyList : List JsValue → String
  | [] => ""
  | [v] => jsonStringify v
  | v :: rest => jsonStringify v ++ "," ++ jsonStringifyList rest

def jsonStringifyFields : List (String × JsValue) → String
  | [] => ""
  | [(k, v)] => "\"" ++ jsonEscapeString k ++ "\":" ++ jsonStringify v
  | (k, v) :: rest =>
      "\"" ++ jsonEscapeString k ++ "\":" ++ jsonStringify v ++ "," ++
        jsonStringifyFields rest

end

/-- `ZodSchemaParser.formatDefaultValue`: strings are quoted with doubled
inner quotes; numbers and booleans render via `toString`; a `Date`
renders as its quoted ISO string; other objects (including `null` and
arrays) render as an escaped JSON literal cast to `jsonb`; any remaining
value falls back to its quoted string coercion. -/
def formatDefaultValue : JsValue → String
  | .str s => "'" ++ escapeQuotes s ++ "'"
  | .num n => toString n
  | .bool b => if b then "true" else "false"
  | .date iso => "'" ++ iso ++ "'"
  | .null => "'" ++ escapeQuotes (jsonStringify .null) ++ "'::jsonb"
  | .arr es => "'" ++ escapeQuotes (jsonStringify (.arr es)) ++ "'::jsonb"
  | .obj fs => "'" ++ escapeQuotes (jsonStringify (.obj fs)) ++ "'::jsonb"
  | .func src => "'" ++ escapeQuotes src ++ "'"

/-- The default-clause computation inside `parseZodType`: a function
default whose source mentions `new Date` renders as `NOW()`; a function
default that does not leaves the column without a DEFAULT clause; every
other value goes through `formatDefaultValue`. -/
def parseDefaultClause : JsValue → Option String
  | .func src => if jsIncludes src "new Date" then some "NOW()" else none
  | v => some (formatDefaultValue v)

/-- The base-kind dispatch of `parseZodType` (the chain of `typeName`
comparisons after the wrapper handling): anything that is not one of the
recognized base kinds — including leftover wrappers — falls back to TEXT. -/
def mapZodBase : ZodType → String
  | .zstring checks => getStringType checks
  | .znumber checks => getNumberType checks
  | .zboolean => "BOOLEAN"
  | .zdate => "TIMESTAMP WITH TIME ZONE"
  | .zobject _ => "JSONB"
  | .zrecord _ => "JSONB"
  | .zarray _ => "JSONB"
  | .zenum _ => "TEXT"
  | _ => "TEXT"

/-- `ZodSchemaParser.parseZodType`: unwrap at most one `ZodOptional`
(leaving the column nullable), then at most one `ZodDefault` (computing
the DEFAULT clause and forcing the column non-nullable), then map the
remaining type's kind to a PostgreSQL type. -/
def parseZodType (fieldName : String) (zodType : ZodType) : ColumnDefinition :=
  let t1 := match zodType with
    | .zoptional inner => inner
    | t => t
  match t1 with
  | .zdefault v inner =>
      { name := fieldName, type := mapZodBase inner, nullable := false,
        defaultValue := parseDefaultClause v }
  | t2 =>
      { name := fieldName, type := mapZodBase t2, nullable := true,
        defaultValue := none }

/-- `ZodSchemaParser.shouldCreateIndex`: fixed list of common lookup
field names, plus every field ending in `_id`. -/
def indexFields : List String :=
  ["email", "name", "status", "type", "category", "user_id", "company_id"]

def shouldCreateIndex (fieldName : String) : Bool :=
  indexFields.contains fieldName || strEndsWith fieldName "_id"

/-- `ZodSchemaParser.pluralize`: trailing `y` → `ies`; trailing `s`,
`sh`, `ch`, `x`, `z` → append `es`; otherwise append `s`. -/
def pluralize (singular : String) : String :=
  if strEndsWith singular "y" then strDropRight singular 1 ++ "ies"
  else if strEndsWith singular "s" || strEndsWith singular "sh" ||
      strEndsWith singular "ch" || strEndsWith singular "x" ||
      strEndsWith singular "z" then singular ++ "es"
  else singular ++ "s"

/-- `ZodSchemaParser.extractReference`: a field name ending in `_id`
(and not literally `id`) references the pluralized stem's `id` column;
the later `company_id` special case is kept as in the source (it is
unreachable, because `company_id` already matches the first branch). -/
def extractReference (fieldName : String) : Option (String × String) :=
  if strEndsWith fieldName "_id" && fieldName ≠ "id" then
    some (pluralize (strDropRight fieldName 3), "id")
  else if fieldName = "company_id" then
    some ("companies", "id")
  else none

/-- `ZodSchemaParser.parseZodObject`: leading `id` UUID primary key,
schema fields in declaration order, trailing `created_at` / `updated_at`,
one index per flagged field named `idx_<table>_<field>`, one foreign-key
constraint per field with an extracted reference. -/
def parseZodObject (shape : List (String × ZodType)) (tableName : String) :
    TableDefinition :=
  let fieldColumns := shape.map (fun p => parseZodType p.1 p.2)
  let indexes := shape.filterMap (fun p =>
    if shouldCreateIndex p.1 then
      some { name := "idx_" ++ tableName ++ "_" ++ p.1, columns := [p.1],
             unique := false : IndexDefinition }
    else none)
  let constraints := shape.filterMap (fun p =>
    (extractReference p.1).map (fun r =>
      { name := "fk_" ++ tableName ++ "_" ++ p.1, type := "foreign_key",
        definition := "FOREIGN KEY (" ++ p.1 ++ ") REFERENCES " ++
          r.1 ++ "(" ++ r.2 ++ ")" : ConstraintDefinition }))
  { name := tableName,
    columns :=
      { name := "id", type := "UUID", nullable := false, primaryKey := true,
        defaultValue := some "gen_random_uuid()" : ColumnDefinition } ::
      fieldColumns ++
      [{ name := "created_at", type := "TIMESTAMP WITH TIME ZONE",
         nullable := false, defaultValue := some "NOW()" },
       { name := "updated_at", type := "TIMESTAMP WITH TIME ZONE",
         nullable := false, defaultValue := some "NOW()" }],
    indexes := indexes,
    constraints := constraints }

/-- Column rendering inside `generateCreateTableSQL`. -/
def renderColumn (col : ColumnDefinition) : String :=
  "\"" ++ col.name ++ "\" " ++ col.type ++
  (if col.nullable then "" else " NOT NULL") ++
  (match col.defaultValue with
   | some d => " DEFAULT " ++ d
   | none => "") ++
  (if col.unique && !col.primaryKey then " UNIQUE" else "")

/-- `ZodSchemaParser.generateCreateTableSQL`: guarded CREATE TABLE with
all columns, table-level constraints, per-field guarded CREATE INDEX
statements, and the `updated_at`-maintenance trigger. -/
def generateCreateTableSQL (tableDef : TableDefinition) : String :=
  let columns := String.intercalate ",\n    " (tableDef.columns.map renderColumn)
  let base := "CREATE TABLE IF NOT EXISTS \"" ++ tableDef.name ++ "\" (\n    " ++ columns
  let withConstraints :=
    if tableDef.constraints.length > 0 then
      base ++ ",\n    " ++ String.intercalate ",\n    "
        (tableDef.constraints.map (fun c => "CONSTRAINT " ++ c.name ++ " " ++ c.definition))
    else base
  let withEnd := withConstraints ++ "\n);"
  let withIndexes :=
    if tableDef.indexes.length > 0 then
      withEnd ++ "\n\n" ++ String.intercalate "\n"
        (tableDef.indexes.map (fun i =>
          "CREATE " ++ (if i.unique then "UNIQUE " else "") ++
          "INDEX IF NOT EXISTS \"" ++ i.name ++ "\" ON \"" ++ tableDef.name ++
          "\" (" ++ String.intercalate ", " (i.columns.map (fun c => "\"" ++ c ++ "\"")) ++ ");"))
    else withEnd
  withIndexes ++ "\n\n-- Add updated_at trigger\n" ++
    "CREATE OR REPLACE FUNCTION update_updated_at_column()\nRETURNS TRIGGER AS $$\nBEGIN\n" ++
    "    NEW.updated_at = NOW();\n    RETURN NEW;\nEND;\n$$ language 'plpgsql';\n\n" ++
    "DROP TRIGGER IF EXISTS update_" ++ tableDef.name ++ "_updated_at ON \"" ++ tableDef.name ++ "\";\n" ++
    "CREATE TRIGGER update_" ++ tableDef.name ++ "_updated_at \n" ++
    "    BEFORE UPDATE ON \"" ++ tableDef.name ++ "\" \n" ++
    "    FOR EACH ROW EXECUTE FUNCTION update_updated_at_column();"

/-- `ZodSchemaParser.toPostgreSQL`. -/
def toPostgreSQL (shape : List (String × ZodType)) (tableName : String) : String :=
  generateCreateTableSQL (parseZodObject shape tableName)

end ZodSchemaParser

/-! ## Schema serializer (`MetricsHubSchemaInstance.serializeZodType`)

The serializer unwraps at most one `ZodOptional`, then at most one
`ZodNullable`, then at most one `ZodDefault` — in that order — recording
each as a flag (plus the evaluated default value), and then records the
kind-specific metadata of whatever type remains; a remaining wrapper or
unrecognized type is recorded as kind `unknown`. -/

mutual

/-- Kind-specific part of the transmission descriptor (the `zodType`
discriminator together with the metadata stored next to it). -/
inductive DescBody where
  | strBody (checks : List StringCheck)
  | numBody (checks : List NumberCheck)
  | boolBody
  | dateBody
  | objBody (shape : List (String × Desc))
  | arrBody (element : Desc)
  | recBody (valueType : Desc)
  | enumBody (values : List String)
  | litBody (value : JsValue)
  | unknownBody

/-- One field's transmission descriptor: the three wrapper flags, the
evaluated default value when present, and the kind-specific body. -/
inductive Desc where
  | mk (opt nul hasDefault : Bool) (defaultValue : Option JsValue)
       (body : DescBody)

end

namespace Serializer

mutual

/-- `serializeZodType` applied to the type remaining after the wrapper
unwrapping: the kind-specific metadata recorded in the descriptor. -/
def serializeBody : ZodType → DescBody
  | .zstring checks => .strBody checks
  | .znumber checks => .numBody checks
  | .zboolean => .boolBody
  | .zdate => .dateBody
  | .zobject shape => .objBody (serializeShape shape)
  | .zarray e => .arrBody (serializeZodType e)
  | .zrecord v => .recBody (serializeZodType v)
  | .zenum vs => .enumBody vs
  | .zliteral v => .litBody v
  | _ => .unknownBody

/-- `MetricsHubSchemaInstance.serializeZodType`: the sequential
`ZodOptional` → `ZodNullable` → `ZodDefault` unwrapping, written out as
the finitely many wrapper shapes it can encounter. -/
def serializeZodType : ZodType → Desc
  | .zoptional (.znullable (.zdefault v i)) => .mk true true true (some v) (serializeBody i)
  | .zoptional (.znullable (.znullable i)) => .mk true true false none (serializeBody (.znullable i))
  | .zoptional (.znullable (.zoptional i)) => .mk true true false none (serializeBody (.zoptional i))
  | .zoptional (.znullable i) => .mk true true false none (serializeBody i)
  | .zoptional (.zdefault v i) => .mk true false true (some v) (serializeBody i)
  | .zoptional (.zoptional i) => .mk true false false none (serializeBody (.zoptional i))
  | .zoptional i => .mk true false false none (serializeBody i)
  | .znullable (.zdefault v i) => .mk false true true (some v) (serializeBody i)
  | .znullable (.znullable i) => .mk false true false none (serializeBody (.znullable i))
  | .znullable (.zoptional i) => .mk false true false none (serializeBody (.zoptional i))
  | .znullable i => .mk false true false none (serializeBody i)
  | .zdefault v i => .mk false false true (some v) (serializeBody i)
  | i => .mk false false false none (serializeBody i)

/-- `serializeZodObject`: serialize every field of an object shape. -/
def serializeShape : List (String × ZodType) → List (String × Desc)
  | [] => []
  | (n, t) :: rest => (n, serializeZodType t) :: serializeShape rest

end

mutual

/-- Modelled from the spec: the engine has no in-repository function that
re-derives a column from a transmission descriptor; §4.3 requires that
"re-deriving a ColumnDefinition from the descriptor must be equivalent to
compiling directly from the original FieldSchema".  This rehydration
reconstructs a Zod type tree from a descriptor, restoring the wrappers in
the serializer's canonical `Optional(Nullable(Default(...)))` order, so
that re-derivation is `parseZodType` after `rehydrate`. -/
def rehydrateBody : DescBody → ZodType
  | .strBody checks => .zstring checks
  | .numBody checks => .znumber checks
  | .boolBody => .zboolean
  | .dateBody => .zdate
  | .objBody shape => .zobject (rehydrateShape shape)
  | .arrBody e => .zarray (rehydrate e)
  | .recBody v => .zrecord (rehydrate v)
  | .enumBody vs => .zenum vs
  | .litBody v => .zliteral v
  | .unknownBody => .zunknown

/-- Modelled from the spec: reconstruct one field's Zod type from its
descriptor (see `rehydrateBody`). -/
def rehydrate : Desc → ZodType
  | .mk opt nul hasDefault dv body =>
      let b0 := rehydrateBody body
      let b1 := if hasDefault then ZodType.zdefault (dv.getD .null) b0 else b0
      let b2 := if nul then ZodType.znullable b1 else b1
      if opt then ZodType.zoptional b2 else b2

/-- Modelled from the spec: reconstruct an object shape field by field. -/
def rehydrateShape : List (String × Desc) → List (String × ZodType)
  | [] => []
  | (n, d) :: rest => (n, rehydrate d) :: rehydrateShape rest

end

/-- Modelled from the spec: re-deriving a `ColumnDefinition` from a
transmission descriptor — rehydrate the field schema and compile it with
the Field Type Mapper. -/
def recompileColumn (fieldName : String) (d : Desc) : ColumnDefinition :=
  ZodSchemaParser.parseZodType fieldName (rehydrate d)

end Serializer

/-! ## Payload validation (`zodSchema.parse` at the boundary)

`TableOperationsImpl.insert` / `insertMany` call `this.zodSchema.parse`
on the payload before issuing the query call.  Zod is an external
dependency; its documented object-parsing semantics are modelled here at
the level the claims need: type/constraint checking per field, absent
fields accepted only under `optional` (omitted) or `default` (filled
with the default value), unknown keys stripped, output in shape order. -/

abbrev Payload := List (String × JsValue)

/-- Whether a Zod string check accepts a string (the `uuid` format test
is approximated by its length; no claim depends on it). -/
def checkStringOk : StringCheck → String → Bool
  | .max n, s => (s.data.length : Int) ≤ n
  | .uuid, s => s.data.length = 36
  | .other, _ => true

mutual

/-- Does a Zod type accept a present JS value? -/
def zodAccepts : ZodType → JsValue → Bool
  | .zstring checks, .str s => checks.all (fun c => checkStringOk c s)
  | .zstring _, _ => false
  | .znumber _, .num _ => true
  | .znumber _, _ => false
  | .zboolean, .bool _ => true
  | .zboolean, _ => false
  | .zdate, .date _ => true
  | .zdate, _ => false
  | .zobject shape, .obj fields => zodShapeAccepts shape fields
  | .zobject _, _ => false
  | .zarray e, .arr es => zodListAccepts e es
  | .zarray _, _ => false
  | .zrecord v, .obj fields => zodFieldsAccept v fields
  | .zrecord _, _ => false
  | .zenum vs, .str s => vs.contains s
  | .zenum _, _ => false
  | .zliteral v, w => v == w
  | .zoptional t, v => zodAccepts t v
  | .znullable _, .null => true
  | .znullable t, v => zodAccepts t v
  | .zdefault _ t, v => zodAccepts t v
  | .zunknown, _ => true

/-- Every element of an array accepted by the element type. -/
def zodListAccepts : ZodType → List JsValue → Bool
  | _, [] => true
  | e, v :: vs => zodAccepts e v && zodListAccepts e vs

/-- Every value of a record accepted by the value type. -/
def zodFieldsAccept : ZodType → List (String × JsValue) → Bool
  | _, [] => true
  | t, (_, v) :: fs => zodAccepts t v && zodFieldsAccept t fs

/-- Every field of an object shape accepted against the payload. -/
def zodShapeAccepts : List (String × ZodType) → Payload → Bool
  | [], _ => true
  | (n, t) :: rest, fields =>
      (match fields.lookup n with
       | some v => zodAccepts t v
       | none =>
          match t with
          | .zoptional _ => true
          | .zdefault _ _ => true
          | _ => false) &&
      zodShapeAccepts rest fields

end

/-- Parse one field: `none` rejects the payload; `some none` omits the
key from the output; `some (some v)` includes it. -/
def zodFieldParse (t : ZodType) (v : Option JsValue) : Option (Option JsValue) :=
  match v with
  | some v => if zodAccepts t v then some (some v) else none
  | none =>
      match t with
      | .zoptional _ => some none
      | .zdefault dv _ => some (some dv)
      | _ => none

/-- `zodSchema.parse(data)` for an object schema: `none` models the
thrown `ZodError`; on success the validated payload has the shape's
fields in shape order, defaults filled in, unknown keys stripped. -/
def zodObjectParse (shape : List (String × ZodType)) (payload : Payload) :
    Option Payload :=
  match shape with
  | [] => some []
  | (n, t) :: rest =>
      match zodFieldParse t (payload.lookup n), zodObjectParse rest payload with
      | some (some v), some out => some ((n, v) :: out)
      | some none, some out => some out
      | _, _ => none

/-! ## `DatabaseManager` and `TableOperationsImpl`

The remote side is modelled by an `Env` giving, per endpoint, either a
response (`some`) or a thrown transport error (`none`, covering both a
network failure and a non-ok HTTP status inside `apiCall`).  Every
operation returns its result together with the updated provisioning
cache and the trace of remote calls it issued, in order. -/

/-- `ApiResponse` from `types/database.ts`; `tblExists` models the
`data?.exists` payload of the check-table endpoint, `rdata` the `data`
payload of the query endpoint. -/
structure ApiResponse where
  success : Bool
  error : Option String := none
  tblExists : Option Bool := none
  rdata : Option JsValue := none
deriving Repr

/-- `WhereCondition` from `types/database.ts`. -/
structure WhereCond where
  column : String
  operator : String
  value : JsValue
deriving Repr, BEq

/-- `QueryOptions` from `types/database.ts` (the options object accepted
by `select`). -/
structure SelectOptions where
  whereCond : Option (List WhereCond) := none
  orderBy : Option (List (String × String)) := none
  limit : Option Int := none
  offset : Option Int := none
deriving Repr, BEq

/-- The `options` object each operation sends to the `/query` endpoint. -/
inductive QueryOpts where
  | selectQ (options : Option SelectOptions)
  | countQ (whereCond : Option (List WhereCond))
  | insertQ (data : Payload)
  | insertManyQ (data : List Payload)
  | updateQ (whereCond : List WhereCond) (data : Payload) (returnAll : Bool)
  | deleteQ (whereCond : List WhereCond) (returnCount : Bool)
deriving Repr, BEq

/-- One outbound remote call, as observed by a call-counting transport. -/
inductive RemoteCall where
  | check (schemaName tableName : String)
  | schema (schemaName : String)
  | create (schemaName tableName : String) (ddl : String)
  | query (schemaName tableName : String) (operation : String) (options : QueryOpts)
deriving Repr, BEq

/-- The remote side's behavior: per endpoint, `none` models a thrown
transport error and `some r` a delivered response. -/
structure Env where
  checkTableR : Option ApiResponse
  ensureSchemaR : Option ApiResponse
  ensureTableR : Option ApiResponse
  queryR : Option ApiResponse

namespace DatabaseManager

/-- `DatabaseManager.checkTableExists`: any thrown error is swallowed and
answered as `false`; otherwise `response.data?.exists || false`. -/
def checkTableExists (env : Env) (schemaName tableName : String) :
    Bool × List RemoteCall :=
  (match env.checkTableR with
   | none => false
   | some r => r.tblExists.getD false,
   [.check schemaName tableName])

/-- `DatabaseManager.ensureSchema`: throws on transport error and on a
`success: false` response (with the endpoint-provided error in the
message). -/
def ensureSchema (env : Env) (schemaName : String) :
    Except String Unit × List RemoteCall :=
  (match env.ensureSchemaR with
   | none => .error "transport error"
   | some r =>
      if r.success then .ok ()
      else .error ("Failed to create schema " ++ schemaName ++ ": " ++
        (r.error.getD "undefined")),
   [.schema schemaName])

/-- `DatabaseManager.createTable`: ensure the schema, generate the DDL,
send it to `/ensure-table`, and throw when the response is not a
success. -/
def createTable (env : Env) (schemaName tableName : String)
    (shape : List (String × ZodType)) : Except String Unit × List RemoteCall :=
  match ensureSchema env schemaName with
  | (.error e, calls) => (.error e, calls)
  | (.ok _, calls) =>
      let ddl := ZodSchemaParser.toPostgreSQL shape tableName
      (match env.ensureTableR with
       | none => .error "transport error"
       | some r =>
          if r.success then .ok ()
          else .error ("Failed to create table " ++ tableName ++ ": " ++
            (r.error.getD "undefined")),
       calls ++ [.create schemaName tableName ddl])

/-- `DatabaseManager.ensureTable`: serve from the `createdTables` cache
when possible; otherwise check existence, create when absent, and cache
the key only after the sequence succeeded.  On failure the error
propagates and the cache is left unchanged. -/
def ensureTable (env : Env) (cache : List String)
    (schemaName tableName : String) (shape : List (String × ZodType)) :
    Except String Unit × List String × List RemoteCall :=
  let tableKey := schemaName ++ "." ++ tableName
  if cache.contains tableKey then (.ok (), cache, [])
  else
    let chk := checkTableExists env schemaName tableName
    if chk.1 then (.ok (), tableKey :: cache, chk.2)
    else
      match createTable env schemaName tableName shape with
      | (.ok _, c2) => (.ok (), tableKey :: cache, chk.2 ++ c2)
      | (.error e, c2) => (.error e, cache, chk.2 ++ c2)

/-- `DatabaseManager.query`: one call to the `/query` endpoint; a
transport error is thrown, any delivered response (successful or not) is
returned to the operation. -/
def query (env : Env) (schemaName tableName : String) (operation : String)
    (options : QueryOpts) : Except String ApiResponse × List RemoteCall :=
  (match env.queryR with
   | none => .error "transport error"
   | some r => .ok r,
   [.query schemaName tableName operation options])

end DatabaseManager

/-- JavaScript `x || fallback` on an optional response field. -/
def jsFalsy : JsValue → Bool
  | .null => true
  | .bool b => !b
  | .num n => n = 0
  | .str s => s = ""
  | _ => false

def jsDataOr (d : Option JsValue) (fb : JsValue) : JsValue :=
  match d with
  | none => fb
  | some v => if jsFalsy v then fb else v

/-- JavaScript `response.error || 'fallback message'`. -/
def jsErrOr (e : Option String) (fb : String) : String :=
  match e with
  | some m => if m = "" then fb else m
  | none => fb

/-- JavaScript `obj?.field` on a response payload. -/
def jsGet (d : Option JsValue) (field : String) : Option JsValue :=
  match d with
  | some (.obj fs) => fs.lookup field
  | _ => none

/-- JavaScript `data?.field || 0` for the numeric count results. -/
def jsNumOr0 (v : Option JsValue) : Int :=
  match v with
  | some (.num n) => n
  | _ => 0

namespace TableOperationsImpl

open DatabaseManager

/-- The state a `TableOperationsImpl` closes over: its table name, its
Zod schema's shape, and the owning manager's schema name plus
provisioning cache (the only mutable state). -/
structure Ctx where
  schemaName : String
  tableName : String
  shape : List (String × ZodType)

/-- The common result shape of an operation: the outcome, the updated
provisioning cache, and the trace of remote calls in order. -/
abbrev OpResult (α : Type) := Except String α × List String × List RemoteCall

/-- Run the query step shared by the throwing operations: issue the
query call and turn a `success: false` response into a thrown error with
the endpoint-provided message (or the operation's fallback message). -/
def queryStep (env : Env) (c : Ctx) (operation : String) (options : QueryOpts)
    (fallbackMsg : String) : Except String ApiResponse × List RemoteCall :=
  match query env c.schemaName c.tableName operation options with
  | (.error e, calls) => (.error e, calls)
  | (.ok r, calls) =>
      if r.success then (.ok r, calls)
      else (.error (jsErrOr r.error fallbackMsg), calls)

/-- `TableOperationsImpl.select`. -/
def select (env : Env) (cache : List String) (c : Ctx)
    (options : Option SelectOptions) : OpResult JsValue :=
  match ensureTable env cache c.schemaName c.tableName c.shape with
  | (.error e, cache', calls) => (.error e, cache', calls)
  | (.ok _, cache', calls) =>
      match queryStep env c "select" (.selectQ options) "Select operation failed" with
      | (.error e, qs) => (.error e, cache', calls ++ qs)
      | (.ok r, qs) => (.ok (jsDataOr r.rdata (.arr [])), cache', calls ++ qs)

/-- `results.length > 0 ? results[0] : null`. -/
def firstOrNull : JsValue → JsValue
  | .arr (x :: _) => x
  | _ => .null

/-- `TableOperationsImpl.selectOne`: `select` with `limit: 1`, then the
first row or `null`. -/
def selectOne (env : Env) (cache : List String) (c : Ctx)
    (options : Option SelectOptions) : OpResult JsValue :=
  let merged := { options.getD {} with limit := some 1 }
  match select env cache c (some merged) with
  | (.error e, cache', calls) => (.error e, cache', calls)
  | (.ok rows, cache', calls) => (.ok (firstOrNull rows), cache', calls)

/-- `TableOperationsImpl.insert`: ensure the table, validate the payload
with the Zod schema (a `ZodError` propagates before any query call), and
send the validated data to the query endpoint. -/
def insert (env : Env) (cache : List String) (c : Ctx) (data : Payload) :
    OpResult (Option JsValue) :=
  match ensureTable env cache c.schemaName c.tableName c.shape with
  | (.error e, cache', calls) => (.error e, cache', calls)
  | (.ok _, cache', calls) =>
      match zodObjectParse c.shape data with
      | none => (.error "ZodError", cache', calls)
      | some validated =>
          match queryStep env c "insert" (.insertQ validated) "Insert operation failed" with
          | (.error e, qs) => (.error e, cache', calls ++ qs)
          | (.ok r, qs) => (.ok r.rdata, cache', calls ++ qs)

/-- `data.map(item => this.zodSchema.parse(item))`: the first invalid
item throws. -/
def parseAll (shape : List (String × ZodType)) : List Payload → Option (List Payload)
  | [] => some []
  | p :: ps =>
      match zodObjectParse shape p, parseAll shape ps with
      | some v, some vs => some (v :: vs)
      | _, _ => none

/-- `TableOperationsImpl.insertMany`. -/
def insertMany (env : Env) (cache : List String) (c : Ctx)
    (data : List Payload) : OpResult JsValue :=
  match ensureTable env cache c.schemaName c.tableName c.shape with
  | (.error e, cache', calls) => (.error e, cache', calls)
  | (.ok _, cache', calls) =>
      match parseAll c.shape data with
      | none => (.error "ZodError", cache', calls)
      | some validated =>
          match queryStep env c "insert" (.insertManyQ validated) "Insert many operation failed" with
          | (.error e, qs) => (.error e, cache', calls ++ qs)
          | (.ok r, qs) => (.ok (jsDataOr r.rdata (.arr [])), cache', calls ++ qs)

/-- `TableOperationsImpl.update`: no payload validation; the payload is
forwarded verbatim under an `id`-equality condition. -/
def update (env : Env) (cache : List String) (c : Ctx) (id : String)
    (data : Payload) : OpResult (Option JsValue) :=
  match ensureTable env cache c.schemaName c.tableName c.shape with
  | (.error e, cache', calls) => (.error e, cache', calls)
  | (.ok _, cache', calls) =>
      match queryStep env c "update"
          (.updateQ [⟨"id", "eq", .str id⟩] data false) "Update operation failed" with
      | (.error e, qs) => (.error e, cache', calls ++ qs)
      | (.ok r, qs) => (.ok r.rdata, cache', calls ++ qs)

/-- `TableOperationsImpl.updateWhere`: no payload validation; conditions
and payload are forwarded verbatim with `returnAll: true`. -/
def updateWhere (env : Env) (cache : List String) (c : Ctx)
    (whereCond : List WhereCond) (data : Payload) : OpResult JsValue :=
  match ensureTable env cache c.schemaName c.tableName c.shape with
  | (.error e, cache', calls) => (.error e, cache', calls)
  | (.ok _, cache', calls) =>
      match queryStep env c "update"
          (.updateQ whereCond data true) "Update where operation failed" with
      | (.error e, qs) => (.error e, cache', calls ++ qs)
      | (.ok r, qs) => (.ok (jsDataOr r.rdata (.arr [])), cache', calls ++ qs)

/-- `TableOperationsImpl.delete`: issues the delete query and returns
`response.success` — a `success: false` response comes back as a normal
`false`, not as a thrown error. -/
def deleteOp (env : Env) (cache : List String) (c : Ctx) (id : String) :
    OpResult Bool :=
  match ensureTable env cache c.schemaName c.tableName c.shape with
  | (.error e, cache', calls) => (.error e, cache', calls)
  | (.ok _, cache', calls) =>
      match query env c.schemaName c.tableName "delete"
          (.deleteQ [⟨"id", "eq", .str id⟩] false) with
      | (.error e, qs) => (.error e, cache', calls ++ qs)
      | (.ok r, qs) => (.ok r.success, cache', calls ++ qs)

/-- `TableOperationsImpl.deleteWhere`: throws on `success: false`, else
returns `data?.deletedCount || 0`. -/
def deleteWhere (env : Env) (cache : List String) (c : Ctx)
    (whereCond : List WhereCond) : OpResult Int :=
  match ensureTable env cache c.schemaName c.tableName c.shape with
  | (.error e, cache', calls) => (.error e, cache', calls)
  | (.ok _, cache', calls) =>
      match queryStep env c "delete" (.deleteQ whereCond true) "Delete where operation failed" with
      | (.error e, qs) => (.error e, cache', calls ++ qs)
      | (.ok r, qs) => (.ok (jsNumOr0 (jsGet r.rdata "deletedCount")), cache', calls ++ qs)

/-- `TableOperationsImpl.count`: a `select` query with `count: true`;
throws on `success: false`, else returns `data?.count || 0`. -/
def count (env : Env) (cache : List String) (c : Ctx)
    (whereCond : Option (List WhereCond)) : OpResult Int :=
  match ensureTable env cache c.schemaName c.tableName c.shape with
  | (.error e, cache', calls) => (.error e, cache', calls)
  | (.ok _, cache', calls) =>
      match queryStep env c "select" (.countQ whereCond) "Count operation failed" with
      | (.error e, qs) => (.error e, cache', calls ++ qs)
      | (.ok r, qs) => (.ok (jsNumOr0 (jsGet r.rdata "count")), cache', calls ++ qs)

end TableOperationsImpl

/-! ## Concurrent first access to `ensureTable`

`ensureTable`'s suspension points are its awaited remote calls; the
synchronous stretches between them are atomic on the event loop.  The
small-step model below makes each remote round trip (together with the
synchronous code that follows it up to the next await) one atomic step,
and lets a scheduler interleave two callers of `ensureTable` for the
same table over the shared `createdTables` cache.  Coarser atomicity
only removes interleavings, so any race exhibited here is present in
the source. -/

namespace Concurrency

/-- Where one caller of `ensureTable` stands between suspension points. -/
inductive CallerState where
  | start
  | afterCheck (tblExists : Bool)
  | done (ok : Bool)
deriving Repr, DecidableEq

/-- One atomic step of one caller: the cache membership test followed by
the existence check, or — for a caller whose check answered "does not
exist" — the whole create sequence followed by the cache insertion. -/
def step (env : Env) (schemaName tableName : String)
    (shape : List (String × ZodType)) (cache : List String)
    (s : CallerState) : List String × CallerState × List RemoteCall :=
  let tableKey := schemaName ++ "." ++ tableName
  match s with
  | .start =>
      if cache.contains tableKey then (cache, .done true, [])
      else
        let chk := DatabaseManager.checkTableExists env schemaName tableName
        (cache, .afterCheck chk.1, chk.2)
  | .afterCheck true => (tableKey :: cache, .done true, [])
  | .afterCheck false =>
      match DatabaseManager.createTable env schemaName tableName shape with
      | (.ok _, calls) => (tableKey :: cache, .done true, calls)
      | (.error _, calls) => (cache, .done false, calls)
  | .done b => (cache, .done b, [])

/-- Run two callers of `ensureTable` under a schedule (`true` steps the
first caller, `false` the second), collecting every remote call. -/
def runSched (env : Env) (schemaName tableName : String)
    (shape : List (String × ZodType)) :
    List Bool → List String → CallerState → CallerState →
      List String × CallerState × CallerState × List RemoteCall
  | [], cache, sA, sB => (cache, sA, sB, [])
  | true :: rest, cache, sA, sB =>
      let r := step env schemaName tableName shape cache sA
      let rec' := runSched env schemaName tableName shape rest r.1 r.2.1 sB
      (rec'.1, rec'.2.1, rec'.2.2.1, r.2.2 ++ rec'.2.2.2)
  | false :: rest, cache, sA, sB =>
      let r := step env schemaName tableName shape cache sB
      let rec' := runSched env schemaName tableName shape rest r.1 sA r.2.1
      (rec'.1, rec'.2.1, rec'.2.2.1, r.2.2 ++ rec'.2.2.2)

/-- Count the `create` calls in a trace. -/
def createCount (calls : List RemoteCall) : Nat :=
  calls.countP (fun c => match c with | .create _ _ _ => true | _ => false)

/-- A remote side on which the table does not exist yet and every
provisioning call succeeds. -/
def freshEnv : Env :=
  { checkTableR := some { success := true, tblExists := some false },
    ensureSchemaR := some { success := true },
    ensureTableR := some { success := true },
    queryR := some { success := true } }

end Concurrency

/-! ## Derived predicates and concrete instances used by the claims -/

/-- Is a remote call a `/query` call? -/
def RemoteCall.isQuery : RemoteCall → Bool
  | .query _ _ _ _ => true
  | _ => false

/-- Does the field's wrapper structure, after at most one optional
wrapper, start with a default wrapper (the only thing that makes
`parseZodType` emit NOT NULL)? -/
def hasDefaultWrapper : ZodType → Bool
  | .zdefault _ _ => true
  | .zoptional (.zdefault _ _) => true
  | _ => false

/-- A string check that `getStringType` reacts to: a max-length bound of
at most 255, or the uuid format check. -/
def relevantStringCheck : StringCheck → Bool
  | .max v => v ≤ 255
  | .uuid => true
  | .other => false

/-- The column type determined by the first relevant check in
declaration order (the amended reading of the string-mapping rule). -/
def stringTypeOfFirstRelevant (checks : List StringCheck) : String :=
  match checks.find? relevantStringCheck with
  | some (.max _) => "VARCHAR"
  | some .uuid => "UUID"
  | _ => "TEXT"

/-- The claim's pluralization rule, written from the spec's words:
trailing `y` → `ies`, trailing `s`/`sh`/`ch`/`x`/`z` → word plus `es`,
anything else → word plus `s`. -/
def pluralizeSpec (w : String) : String :=
  if strEndsWith w "y" then strDropRight w 1 ++ "ies"
  else if strEndsWith w "s" || strEndsWith w "sh" || strEndsWith w "ch" ||
      strEndsWith w "x" || strEndsWith w "z" then w ++ "es"
  else w ++ "s"

/-- The foreign-key constraint `parseZodObject` emits for one field. -/
def fkOfField (tableName : String) (p : String × ZodType) :
    Option ConstraintDefinition :=
  (ZodSchemaParser.extractReference p.1).map (fun r =>
    { name := "fk_" ++ tableName ++ "_" ++ p.1, type := "foreign_key",
      definition := "FOREIGN KEY (" ++ p.1 ++ ") REFERENCES " ++
        r.1 ++ "(" ++ r.2 ++ ")" })

/-- The spec's end-to-end example table: `users` with `name` (string,
max length 100), `email` (string), `role` (enum admin|user),
`lastActive` (optional date). -/
def usersShape : List (String × ZodType) :=
  [("name", .zstring [.max 100]),
   ("email", .zstring []),
   ("role", .zenum ["admin", "user"]),
   ("lastActive", .zoptional .zdate)]

/-- Table-operations context for the `users` example under namespace `s`. -/
def usersCtx : TableOperationsImpl.Ctx :=
  { schemaName := "s", tableName := "users", shape := usersShape }

/-- The spec's invalid example payload: missing the required `name`. -/
def badPayload : Payload :=
  [("email", .str "j@x.com"), ("role", .str "user")]

/-- A remote side on which the table already exists. -/
def envTableExists : Env :=
  { checkTableR := some { success := true, tblExists := some true },
    ensureSchemaR := some { success := true },
    ensureTableR := some { success := true },
    queryR := some { success := true } }

/-- A remote side whose ensure-schema endpoint answers `success: false`. -/
def envSchemaFail : Env :=
  { checkTableR := some { success := true, tblExists := some false },
    ensureSchemaR := some { success := false, error := some "boom" },
    ensureTableR := some { success := true },
    queryR := some { success := true } }

/-- A remote side whose query endpoint answers `success: false` with an
endpoint-provided message. -/
def envQueryFail : Env :=
  { checkTableR := some { success := true, tblExists := some true },
    ensureSchemaR := some { success := true },
    ensureTableR := some { success := true },
    queryR := some { success := false, error := some "boom" } }

/-! ## Helper lemmas -/

theorem strAppend_left_cancel {a b c : String} (h : a ++ b = a ++ c) :
    b = c := by
  have h2 : a.data ++ b.data = a.data ++ c.data := by
    simpa using congrArg String.data h
  have h3 : b.data = c.data := List.append_cancel_left h2
  obtain ⟨lb⟩ := b
  obtain ⟨lc⟩ := c
  exact congrArg String.mk h3

theorem checkTableExists_snd (env : Env) (sn tn : String) :
    (DatabaseManager.checkTableExists env sn tn).2 = [.check sn tn] := rfl

/-! ## C1 — the `users` end-to-end compile -/

/-- C1 counterexample: the claim asserts the compiled `users` table has
`name` as a `VARCHAR NOT NULL` column; the compiled table contains no
such column (the code leaves every plain field nullable). -/
theorem C1_users_notnull_counterexample :
    ¬ ((ZodSchemaParser.parseZodObject usersShape "users").columns.contains
        { name := "name", type := "VARCHAR", nullable := false,
          primaryKey := false, defaultValue := none, unique := false }) := by
  decide

/-- C1 (amended): compiling the `users` example yields `id` as the UUID
primary key, `name` VARCHAR nullable, `email` TEXT nullable, `role` TEXT
nullable, `lastActive` TIMESTAMP WITH TIME ZONE nullable,
`created_at`/`updated_at` NOT NULL with a current-time default, and
exactly the indexes `idx_users_name` and `idx_users_email`; in general a
non-optional field without a default still compiles to a nullable
column — only a default (possibly under an optional wrapper) forces
NOT NULL. -/
theorem C1_users_table_amended :
    ZodSchemaParser.parseZodObject usersShape "users" =
      { name := "users",
        columns :=
          [{ name := "id", type := "UUID", nullable := false,
             primaryKey := true, defaultValue := some "gen_random_uuid()" },
           { name := "name", type := "VARCHAR", nullable := true },
           { name := "email", type := "TEXT", nullable := true },
           { name := "role", type := "TEXT", nullable := true },
           { name := "lastActive", type := "TIMESTAMP WITH TIME ZONE",
             nullable := true },
           { name := "created_at", type := "TIMESTAMP WITH TIME ZONE",
             nullable := false, defaultValue := some "NOW()" },
           { name := "updated_at", type := "TIMESTAMP WITH TIME ZONE",
             nullable := false, defaultValue := some "NOW()" }],
        indexes :=
          [{ name := "idx_users_name", columns := ["name"] },
           { name := "idx_users_email", columns := ["email"] }],
        constraints := [] } ∧
    ∀ (n : String) (t : ZodType),
      (ZodSchemaParser.parseZodType n t).nullable = !hasDefaultWrapper t := by
  refine ⟨by decide, ?_⟩
  intro n t
  cases t with
  | zoptional i => cases i <;> rfl
  | _ => rfl

/-! ## C7 — defaults force NOT NULL; rendering of default clauses -/

/-- C7 counterexample: a field carrying a default and explicitly marked
nullable inside the default wrapper — the claim says its column remains
nullable, but the code compiles it NOT NULL. -/
theorem C7_nullable_default_counterexample :
    ¬ ((ZodSchemaParser.parseZodType "f"
        (.zdefault (.str "x") (.znullable (.zstring [])))).nullable = true) := by
  decide

/-- C7 (amended): a default wrapper at the head (or under one optional
wrapper) always forces the column non-nullable, even when the field is
also explicitly marked nullable inside it; the DEFAULT clause is `NOW()`
for a deferred producer whose source mentions `new Date`, absent for a
deferred producer that does not, and the quoted/escaped
`formatDefaultValue` literal otherwise; a nullable wrapper outside the
default prevents the default from being recognized at all — such a
column stays nullable with no DEFAULT clause. -/
theorem C7_default_nullability_amended :
    (∀ (n : String) (v : JsValue) (i : ZodType),
      (ZodSchemaParser.parseZodType n (.zdefault v i)).nullable = false ∧
      (ZodSchemaParser.parseZodType n (.zoptional (.zdefault v i))).nullable = false ∧
      (ZodSchemaParser.parseZodType n (.zdefault v i)).defaultValue =
        ZodSchemaParser.parseDefaultClause v) ∧
    (∀ src : String, ZodSchemaParser.parseDefaultClause (.func src) =
      (if jsIncludes src "new Date" then some "NOW()" else none)) ∧
    (∀ s : String, ZodSchemaParser.parseDefaultClause (.str s) =
      some ("'" ++ escapeQuotes s ++ "'")) ∧
    (∀ z : Int, ZodSchemaParser.parseDefaultClause (.num z) = some (toString z)) ∧
    (∀ (n : String) (t : ZodType),
      (ZodSchemaParser.parseZodType n (.znullable t)).nullable = true ∧
      (ZodSchemaParser.parseZodType n (.znullable t)).defaultValue = none) := by
  exact ⟨fun n v i => ⟨rfl, rfl, rfl⟩, fun src => rfl, fun s => rfl,
    fun z => rfl, fun n t => ⟨rfl, rfl⟩⟩

/-! ## C5 — foreign-key inference from `_id` names -/

theorem strParenId (x : String) : x ++ "(" ++ "id" ++ ")" = x ++ "(id)" := by
  rw [String.append_assoc, String.append_assoc]
  exact congrArg (x ++ ·) rfl

theorem fk_filter_no_match (tn f : String) :
    ∀ shape : List (String × ZodType), f ∉ shape.map Prod.fst →
      ((shape.filterMap (fkOfField tn)).filter
        (fun c => c.name = "fk_" ++ tn ++ "_" ++ f)) = [] := by
  intro shape
  induction shape with
  | nil => intro _; rfl
  | cons p rest ih =>
      intro h
      obtain ⟨g, u⟩ := p
      simp only [List.map_cons, List.mem_cons, not_or] at h
      obtain ⟨hgf, hrest⟩ := h
      simp only [List.filterMap_cons]
      cases hx : ZodSchemaParser.extractReference g with
      | none =>
          simp only [fkOfField, hx, Option.map_none']
          exact ih hrest
      | some r =>
          simp only [fkOfField, hx, Option.map_some']
          have hcond : ¬ ((("fk_" ++ tn ++ "_" ++ g : String)) = "fk_" ++ tn ++ "_" ++ f) := by
            intro heq
            exact hgf (strAppend_left_cancel heq).symm
          rw [List.filter_cons, if_neg (by simpa using hcond)]
          exact ih hrest

theorem fk_filter_of_mem (tn f : String) (t : ZodType) :
    ∀ shape : List (String × ZodType),
      (shape.map Prod.fst).Nodup → (f, t) ∈ shape →
      strEndsWith f "_id" = true → f ≠ "id" →
      ((shape.filterMap (fkOfField tn)).filter
        (fun c => c.name = "fk_" ++ tn ++ "_" ++ f)) =
      [{ name := "fk_" ++ tn ++ "_" ++ f, type := "foreign_key",
         definition := "FOREIGN KEY (" ++ f ++ ") REFERENCES " ++
           ZodSchemaParser.pluralize (strDropRight f 3) ++ "(id)" }] := by
  intro shape
  induction shape with
  | nil => intro _ hmem _ _; cases hmem
  | cons p rest ih =>
      intro hnd hmem hsuf hne
      obtain ⟨g, u⟩ := p
      simp only [List.map_cons, List.nodup_cons] at hnd
      obtain ⟨hgnotin, hndrest⟩ := hnd
      rcases List.mem_cons.mp hmem with heq | hmemrest
      · injection heq with hf ht
        subst hf
        have hxr : ZodSchemaParser.extractReference f =
            some (ZodSchemaParser.pluralize (strDropRight f 3), "id") := by
          simp [ZodSchemaParser.extractReference, hsuf, hne]
        simp only [List.filterMap_cons, fkOfField, hxr, Option.map_some']
        rw [List.filter_cons, if_pos (by simp)]
        rw [fk_filter_no_match tn f rest hgnotin]
        rw [strParenId]
      · have hgf : ¬ (f = g) := by
          intro hfg
          exact hgnotin (hfg ▸ (List.mem_map_of_mem Prod.fst hmemrest))
        simp only [List.filterMap_cons]
        cases hx : ZodSchemaParser.extractReference g with
        | none =>
            simp only [fkOfField, hx, Option.map_none']
            exact ih hndrest hmemrest hsuf hne
        | some r =>
            simp only [fkOfField, hx, Option.map_some']
            have hcond : ¬ ((("fk_" ++ tn ++ "_" ++ g : String)) = "fk_" ++ tn ++ "_" ++ f) := by
              intro heq
              exact hgf (strAppend_left_cancel heq).symm
            rw [List.filter_cons, if_neg (by simpa using hcond)]
            exact ih hndrest hmemrest hsuf hne

/-- C5: for every schema field named `<stem>_id` (and not literally
`id`), compiling a table emits exactly one foreign-key constraint for it,
referencing `pluralizeSpec(stem).id` with the claim's pluralization rule
(trailing `y` → `ies`, trailing `s`/`sh`/`ch`/`x`/`z` → `+es`, else
`+s`); the literal field name `company_id` resolves to `companies.id`. -/
theorem C5_foreign_key_inference :
    (∀ (tn : String) (shape : List (String × ZodType)) (f : String) (t : ZodType),
      (shape.map Prod.fst).Nodup → (f, t) ∈ shape →
      strEndsWith f "_id" = true → f ≠ "id" →
      ((ZodSchemaParser.parseZodObject shape tn).constraints.filter
        (fun c => c.name = "fk_" ++ tn ++ "_" ++ f)) =
      [{ name := "fk_" ++ tn ++ "_" ++ f, type := "foreign_key",
         definition := "FOREIGN KEY (" ++ f ++ ") REFERENCES " ++
           pluralizeSpec (strDropRight f 3) ++ "(id)" }]) ∧
    ZodSchemaParser.extractReference "company_id" = some ("companies", "id") ∧
    (∀ w : String, ZodSchemaParser.pluralize w = pluralizeSpec w) := by
  refine ⟨?_, by decide, fun w => rfl⟩
  intro tn shape f t hnd hmem hsuf hne
  have hc : (ZodSchemaParser.parseZodObject shape tn).constraints =
      shape.filterMap (fkOfField tn) := rfl
  rw [hc]
  exact fk_filter_of_mem tn f t shape hnd hmem hsuf hne

/-- C5 witness: a single-field table `posts` with `user_id` gets exactly
the constraint `FOREIGN KEY (user_id) REFERENCES users(id)`. -/
theorem C5_foreign_key_inference_witness :
    ((ZodSchemaParser.parseZodObject [("user_id", .zstring [])] "posts").constraints.filter
      (fun c => c.name = "fk_posts_user_id")) =
    [{ name := "fk_posts_user_id", type := "foreign_key",
       definition := "FOREIGN KEY (user_id) REFERENCES users(id)" }] := by
  have h := C5_foreign_key_inference.1 "posts" [("user_id", .zstring [])]
    "user_id" (.zstring []) (by decide) (by simp) (by decide) (by decide)
  simpa using h

/-! ## C8 — string type mapping -/

/-- C8 counterexample: a string declaring a max-length ≤ 255 before the
uuid check maps to VARCHAR, not UUID — the uuid constraint does not
override an earlier max constraint. -/
theorem C8_order_counterexample :
    ¬ (ZodSchemaParser.getStringType [.max 10, .uuid] = "UUID") := by
  decide

/-- C8 (amended): the first relevant constraint in declaration order
decides the string column type — the first max-length check with bound
≤ 255 yields VARCHAR, the first uuid check yields UUID (so uuid wins
only when declared before any qualifying max); with no relevant check
the type is TEXT. -/
theorem C8_first_relevant_check_wins :
    ∀ checks : List StringCheck,
      ZodSchemaParser.getStringType checks = stringTypeOfFirstRelevant checks := by
  intro checks
  induction checks with
  | nil => rfl
  | cons c rest ih =>
      cases c with
      | max v =>
          by_cases h : v ≤ 255
          · simp [ZodSchemaParser.getStringType, stringTypeOfFirstRelevant,
              List.find?, relevantStringCheck, h]
          · simpa [ZodSchemaParser.getStringType, stringTypeOfFirstRelevant,
              List.find?, relevantStringCheck, h] using ih
      | uuid =>
          simp [ZodSchemaParser.getStringType, stringTypeOfFirstRelevant,
            List.find?, relevantStringCheck]
      | other =>
          simpa [ZodSchemaParser.getStringType, stringTypeOfFirstRelevant,
            List.find?, relevantStringCheck] using ih

/-! ## C6 — serialize / recompile round trip -/

/-- The base-kind mapping survives serializing the post-wrapper type and
rehydrating its body: the kind discriminator and the checks are kept,
and everything the parser maps to a fallback is recorded as `unknown`,
which the parser also maps to the fallback. -/
theorem mapZodBase_zobject (s : List (String × ZodType)) :
    ZodSchemaParser.mapZodBase (.zobject s) = "JSONB" := rfl

theorem mapZodBase_zarray (e : ZodType) :
    ZodSchemaParser.mapZodBase (.zarray e) = "JSONB" := rfl

theorem mapZodBase_zrecord (v : ZodType) :
    ZodSchemaParser.mapZodBase (.zrecord v) = "JSONB" := rfl

theorem mapZodBase_zunknown :
    ZodSchemaParser.mapZodBase .zunknown = "TEXT" := rfl

theorem mapZodBase_znullable (t : ZodType) :
    ZodSchemaParser.mapZodBase (.znullable t) = "TEXT" := rfl

theorem mapZodBase_zoptional (t : ZodType) :
    ZodSchemaParser.mapZodBase (.zoptional t) = "TEXT" := rfl

theorem mapZodBase_zdefault (v : JsValue) (t : ZodType) :
    ZodSchemaParser.mapZodBase (.zdefault v t) = "TEXT" := rfl

theorem mapZodBase_serializeBody (t : ZodType) :
    ZodSchemaParser.mapZodBase (Serializer.rehydrateBody (Serializer.serializeBody t)) =
      ZodSchemaParser.mapZodBase t := by
  cases t <;>
    simp [Serializer.serializeBody, Serializer.rehydrateBody,
      ZodSchemaParser.mapZodBase]

/-- C6: serializing any field schema — at arbitrary nesting depth of
object/array/record fields — and re-deriving a ColumnDefinition from the
descriptor yields exactly the ColumnDefinition obtained by compiling the
original field schema directly. -/
theorem C6_serialize_recompile_roundtrip :
    ∀ (fieldName : String) (t : ZodType),
      Serializer.recompileColumn fieldName (Serializer.serializeZodType t) =
        ZodSchemaParser.parseZodType fieldName t := by
  intro fieldName t
  cases t with
  | zoptional i =>
      cases i with
      | znullable j =>
          cases j <;>
            simp [Serializer.recompileColumn, Serializer.serializeZodType,
              Serializer.serializeBody, Serializer.rehydrate,
              Serializer.rehydrateBody, ZodSchemaParser.parseZodType,
              mapZodBase_serializeBody, mapZodBase_znullable, mapZodBase_zoptional, mapZodBase_zdefault, mapZodBase_zobject, mapZodBase_zarray, mapZodBase_zrecord, mapZodBase_zunknown]
      | _ =>
          simp [Serializer.recompileColumn, Serializer.serializeZodType,
            Serializer.serializeBody, Serializer.rehydrate,
            Serializer.rehydrateBody, ZodSchemaParser.parseZodType,
            mapZodBase_serializeBody, mapZodBase_znullable, mapZodBase_zoptional, mapZodBase_zdefault, mapZodBase_zobject, mapZodBase_zarray, mapZodBase_zrecord, mapZodBase_zunknown]
  | znullable i =>
      cases i <;>
        simp [Serializer.recompileColumn, Serializer.serializeZodType,
          Serializer.serializeBody, Serializer.rehydrate,
          Serializer.rehydrateBody, ZodSchemaParser.parseZodType,
          mapZodBase_serializeBody, mapZodBase_znullable, mapZodBase_zoptional, mapZodBase_zdefault, mapZodBase_zobject, mapZodBase_zarray, mapZodBase_zrecord, mapZodBase_zunknown]
  | _ =>
      simp [Serializer.recompileColumn, Serializer.serializeZodType,
        Serializer.serializeBody, Serializer.rehydrate,
        Serializer.rehydrateBody, ZodSchemaParser.parseZodType,
        mapZodBase_serializeBody, mapZodBase_znullable, mapZodBase_zoptional, mapZodBase_zdefault, mapZodBase_zobject, mapZodBase_zarray, mapZodBase_zrecord, mapZodBase_zunknown]


/-! ## C2 — provisioning cache discipline -/

theorem createTable_calls_no_query (env : Env) (sn tn : String)
    (shape : List (String × ZodType)) :
    ((DatabaseManager.createTable env sn tn shape).2.countP RemoteCall.isQuery) = 0 := by
  unfold DatabaseManager.createTable
  rcases hs : DatabaseManager.ensureSchema env sn with ⟨res, calls⟩
  have hcalls : calls = [.schema sn] := by
    have := congrArg Prod.snd hs
    simpa [DatabaseManager.ensureSchema] using this.symm
  subst hcalls
  cases res <;> simp [RemoteCall.isQuery, List.countP_cons]

theorem ensureTable_calls_no_query (env : Env) (cache : List String)
    (sn tn : String) (shape : List (String × ZodType)) :
    ((DatabaseManager.ensureTable env cache sn tn shape).2.2.countP
      RemoteCall.isQuery) = 0 := by
  unfold DatabaseManager.ensureTable
  by_cases hc : (sn ++ "." ++ tn) ∈ cache
  · simp [hc]
  · simp only [List.elem_eq_mem, decide_eq_true_eq, hc, if_false]
    by_cases hx : (DatabaseManager.checkTableExists env sn tn).1
    · simp [hc, hx, checkTableExists_snd, RemoteCall.isQuery]
    · simp only [hx, Bool.false_eq_true, if_false]
      rcases hct : DatabaseManager.createTable env sn tn shape with ⟨res, calls⟩
      have hnq : calls.countP RemoteCall.isQuery = 0 := by
        have := createTable_calls_no_query env sn tn shape
        rw [hct] at this
        exact this
      cases res <;>
        simp [hc, hx, hct, checkTableExists_snd, List.countP_append, hnq,
          RemoteCall.isQuery]

/-- C2: the provisioning-cache key for a table is added at most once and
only after the remote side confirmed the table (the existence check
answered true, or the create sequence succeeded); a `success: false`
answer from ensure-schema or ensure-table makes `ensureTable` raise and
leaves the cache unchanged, so the full check/create sequence re-runs on
the next call. -/
theorem C2_cache_only_after_confirmation :
    ∀ (env : Env) (cache : List String) (sn tn : String)
      (shape : List (String × ZodType)),
    (cache.contains (sn ++ "." ++ tn) = true →
      DatabaseManager.ensureTable env cache sn tn shape = (.ok (), cache, [])) ∧
    (∀ e cache' calls,
      DatabaseManager.ensureTable env cache sn tn shape = (.error e, cache', calls) →
      cache' = cache) ∧
    (∀ cache' calls,
      DatabaseManager.ensureTable env cache sn tn shape = (.ok (), cache', calls) →
      cache' = cache ∨
        (cache' = (sn ++ "." ++ tn) :: cache ∧
          ((DatabaseManager.checkTableExists env sn tn).1 = true ∨
           (DatabaseManager.createTable env sn tn shape).1 = .ok ()))) ∧
    (∀ r : ApiResponse, cache.contains (sn ++ "." ++ tn) = false →
      (DatabaseManager.checkTableExists env sn tn).1 = false →
      env.ensureSchemaR = some r → r.success = false →
      DatabaseManager.ensureTable env cache sn tn shape =
        (.error ("Failed to create schema " ++ sn ++ ": " ++ r.error.getD "undefined"),
         cache, [.check sn tn, .schema sn])) ∧
    (∀ rs rt : ApiResponse, cache.contains (sn ++ "." ++ tn) = false →
      (DatabaseManager.checkTableExists env sn tn).1 = false →
      env.ensureSchemaR = some rs → rs.success = true →
      env.ensureTableR = some rt → rt.success = false →
      DatabaseManager.ensureTable env cache sn tn shape =
        (.error ("Failed to create table " ++ tn ++ ": " ++ rt.error.getD "undefined"),
         cache,
         [.check sn tn, .schema sn,
          .create sn tn (ZodSchemaParser.toPostgreSQL shape tn)])) := by
  intro env cache sn tn shape
  refine ⟨?_, ?_, ?_, ?_, ?_⟩
  · intro hc
    have hm : (sn ++ "." ++ tn) ∈ cache := by simpa using hc
    simp [DatabaseManager.ensureTable, hm]
  · intro e cache' calls h
    unfold DatabaseManager.ensureTable at h
    by_cases hc : (sn ++ "." ++ tn) ∈ cache
    · simp [hc] at h
    · simp only [List.elem_eq_mem, decide_eq_true_eq, hc, if_false] at h
      by_cases hx : (DatabaseManager.checkTableExists env sn tn).1
      · simp [hx] at h
      · simp only [hx, Bool.false_eq_true, if_false] at h
        rcases hct : DatabaseManager.createTable env sn tn shape with ⟨res, calls2⟩
        rw [hct] at h
        cases res with
        | ok u => simp at h
        | error e2 =>
            simp only [Prod.mk.injEq] at h
            exact h.2.1.symm
  · intro cache' calls h
    unfold DatabaseManager.ensureTable at h
    by_cases hc : (sn ++ "." ++ tn) ∈ cache
    · simp only [List.elem_eq_mem, decide_eq_true_eq, hc, if_true,
        Prod.mk.injEq] at h
      exact Or.inl h.2.1.symm
    · simp only [List.elem_eq_mem, decide_eq_true_eq, hc, if_false] at h
      by_cases hx : (DatabaseManager.checkTableExists env sn tn).1
      · simp only [hx, if_true, Prod.mk.injEq] at h
        exact Or.inr ⟨h.2.1.symm, Or.inl hx⟩
      · simp only [hx, Bool.false_eq_true, if_false] at h
        rcases hct : DatabaseManager.createTable env sn tn shape with ⟨res, calls2⟩
        rw [hct] at h
        cases res with
        | ok u =>
            simp only [Prod.mk.injEq] at h
            exact Or.inr ⟨h.2.1.symm, Or.inr rfl⟩
        | error e2 => simp at h
  · intro r hc hx hs hr
    have hm : (sn ++ "." ++ tn) ∉ cache := by simpa using hc
    have hcreate : DatabaseManager.createTable env sn tn shape =
        (.error ("Failed to create schema " ++ sn ++ ": " ++ r.error.getD "undefined"),
         [.schema sn]) := by
      simp [DatabaseManager.createTable, DatabaseManager.ensureSchema, hs, hr]
    unfold DatabaseManager.ensureTable
    simp [hm, hx, hcreate, checkTableExists_snd]
  · intro rs rt hc hx hs hrs ht hrt
    have hm : (sn ++ "." ++ tn) ∉ cache := by simpa using hc
    have hcreate : DatabaseManager.createTable env sn tn shape =
        (.error ("Failed to create table " ++ tn ++ ": " ++ rt.error.getD "undefined"),
         [.schema sn, .create sn tn (ZodSchemaParser.toPostgreSQL shape tn)]) := by
      simp [DatabaseManager.createTable, DatabaseManager.ensureSchema, hs, hrs, ht, hrt]
    unfold DatabaseManager.ensureTable
    simp [hm, hx, hcreate, checkTableExists_snd]

/-- C2 witness: with an ensure-schema endpoint answering
`success: false`, `ensureTable` on an empty cache raises the schema
error, leaves the cache empty, and has issued exactly the check and
ensure-schema calls. -/
theorem C2_cache_only_after_confirmation_witness :
    DatabaseManager.ensureTable envSchemaFail [] "s" "users" usersShape =
      (.error "Failed to create schema s: boom", [],
       [.check "s" "users", .schema "s"]) := by
  have h := (C2_cache_only_after_confirmation envSchemaFail [] "s" "users"
    usersShape).2.2.2.1 { success := false, error := some "boom" }
    (by decide) (by decide) rfl rfl
  simpa using h


/-! ## C3 — validation versus provisioning calls in `insert` -/

/-- C3 counterexample: on a first-time table, `insert` with the spec's
invalid payload (missing `name`) does report the validation failure, but
only after `ensureTable` has already issued one remote call — not the
zero remote calls the claim requires. -/
theorem C3_insert_zero_calls_counterexample :
    (TableOperationsImpl.insert envTableExists [] usersCtx badPayload).1 =
      .error "ZodError" ∧
    ((TableOperationsImpl.insert envTableExists [] usersCtx badPayload).2.2).length
      = 1 := by
  constructor <;> rfl

/-- C3 (amended): `insert`/`insertMany` validate before the query call —
an invalid payload never reaches the `/query` endpoint and the failure
is reported; but the preceding `ensureTable` may already have issued
provisioning calls, and only when the table is already cached are zero
remote calls made. -/
theorem C3_insert_validates_before_query :
    ∀ (env : Env) (cache : List String) (c : TableOperationsImpl.Ctx)
      (data : Payload) (datas : List Payload),
    (zodObjectParse c.shape data = none →
      ((TableOperationsImpl.insert env cache c data).2.2.countP
        RemoteCall.isQuery = 0) ∧
      (cache.contains (c.schemaName ++ "." ++ c.tableName) = true →
        TableOperationsImpl.insert env cache c data =
          (.error "ZodError", cache, [])) ∧
      (∀ cache' calls,
        DatabaseManager.ensureTable env cache c.schemaName c.tableName c.shape =
          (.ok (), cache', calls) →
        TableOperationsImpl.insert env cache c data =
          (.error "ZodError", cache', calls))) ∧
    (TableOperationsImpl.parseAll c.shape datas = none →
      ((TableOperationsImpl.insertMany env cache c datas).2.2.countP
        RemoteCall.isQuery = 0) ∧
      (cache.contains (c.schemaName ++ "." ++ c.tableName) = true →
        TableOperationsImpl.insertMany env cache c datas =
          (.error "ZodError", cache, []))) := by
  intro env cache c data datas
  constructor
  · intro hv
    refine ⟨?_, ?_, ?_⟩
    · rcases het : DatabaseManager.ensureTable env cache c.schemaName
        c.tableName c.shape with ⟨res, cache', calls⟩
      have hnq : calls.countP RemoteCall.isQuery = 0 := by
        have h0 := ensureTable_calls_no_query env cache c.schemaName
          c.tableName c.shape
        rw [het] at h0
        exact h0
      cases res <;> simp [TableOperationsImpl.insert, het, hv, hnq]
    · intro hc
      have hm : (c.schemaName ++ "." ++ c.tableName) ∈ cache := by simpa using hc
      have het : DatabaseManager.ensureTable env cache c.schemaName
          c.tableName c.shape = (.ok (), cache, []) := by
        simp [DatabaseManager.ensureTable, hm]
      simp [TableOperationsImpl.insert, het, hv]
    · intro cache' calls het
      simp [TableOperationsImpl.insert, het, hv]
  · intro hv
    constructor
    · rcases het : DatabaseManager.ensureTable env cache c.schemaName
        c.tableName c.shape with ⟨res, cache', calls⟩
      have hnq : calls.countP RemoteCall.isQuery = 0 := by
        have h0 := ensureTable_calls_no_query env cache c.schemaName
          c.tableName c.shape
        rw [het] at h0
        exact h0
      cases res <;> simp [TableOperationsImpl.insertMany, het, hv, hnq]
    · intro hc
      have hm : (c.schemaName ++ "." ++ c.tableName) ∈ cache := by simpa using hc
      have het : DatabaseManager.ensureTable env cache c.schemaName
          c.tableName c.shape = (.ok (), cache, []) := by
        simp [DatabaseManager.ensureTable, hm]
      simp [TableOperationsImpl.insertMany, het, hv]

/-- C3 witness: the amended theorem applied to the invalid `users`
payload — neither `insert` nor `insertMany` issues any query call. -/
theorem C3_insert_validates_before_query_witness :
    (TableOperationsImpl.insert envTableExists [] usersCtx badPayload).2.2.countP
      RemoteCall.isQuery = 0 ∧
    (TableOperationsImpl.insertMany envTableExists [] usersCtx [badPayload]).2.2.countP
      RemoteCall.isQuery = 0 := by
  have h := C3_insert_validates_before_query envTableExists [] usersCtx
    badPayload [badPayload]
  exact ⟨(h.1 rfl).1, (h.2 rfl).1⟩

/-! ## C9 — propagation of `success: false` query responses -/

theorem queryStep_fail (env : Env) (c : TableOperationsImpl.Ctx)
    (op : String) (opts : QueryOpts) (fb : String) (r : ApiResponse)
    (m : String) (hq : env.queryR = some r) (hr : r.success = false)
    (hm : r.error = some m) (hne : m ≠ "") :
    TableOperationsImpl.queryStep env c op opts fb =
      (.error m, [.query c.schemaName c.tableName op opts]) := by
  simp [TableOperationsImpl.queryStep, DatabaseManager.query, hq, hr,
    jsErrOr, hm, hne]

theorem queryStep_fst_indep (env : Env) (c : TableOperationsImpl.Ctx)
    (op : String) (opts opts' : QueryOpts) (fb : String) :
    (TableOperationsImpl.queryStep env c op opts fb).1 =
      (TableOperationsImpl.queryStep env c op opts' fb).1 := by
  cases hq : env.queryR with
  | none => simp [TableOperationsImpl.queryStep, DatabaseManager.query, hq]
  | some r =>
      by_cases hs : r.success <;>
        simp [TableOperationsImpl.queryStep, DatabaseManager.query, hq, hs]

/-- C9 (amended): when the query endpoint answers `success: false` with
a message, `select`, `selectOne`, `insert`, `insertMany`, `update`,
`updateWhere`, `deleteWhere` and `count` all propagate a failure carrying
the endpoint-provided message — but `delete` converts the failure into a
normal `false` return. -/
theorem C9_query_failure_propagation :
    ∀ (env : Env) (cache : List String) (c : TableOperationsImpl.Ctx)
      (r : ApiResponse) (m : String) (options : Option SelectOptions)
      (id : String) (w : List WhereCond) (data vd : Payload)
      (datas vds : List Payload),
    env.queryR = some r → r.success = false → r.error = some m → m ≠ "" →
    cache.contains (c.schemaName ++ "." ++ c.tableName) = true →
    zodObjectParse c.shape data = some vd →
    TableOperationsImpl.parseAll c.shape datas = some vds →
    (TableOperationsImpl.select env cache c options).1 = .error m ∧
    (TableOperationsImpl.selectOne env cache c options).1 = .error m ∧
    (TableOperationsImpl.insert env cache c data).1 = .error m ∧
    (TableOperationsImpl.insertMany env cache c datas).1 = .error m ∧
    (TableOperationsImpl.update env cache c id data).1 = .error m ∧
    (TableOperationsImpl.updateWhere env cache c w data).1 = .error m ∧
    (TableOperationsImpl.deleteWhere env cache c w).1 = .error m ∧
    (TableOperationsImpl.count env cache c (some w)).1 = .error m ∧
    (TableOperationsImpl.deleteOp env cache c id).1 = .ok false := by
  intro env cache c r m options id w data vd datas vds hq hr hm hne hc hv hvs
  have hmem : (c.schemaName ++ "." ++ c.tableName) ∈ cache := by simpa using hc
  have het : DatabaseManager.ensureTable env cache c.schemaName
      c.tableName c.shape = (.ok (), cache, []) := by
    simp [DatabaseManager.ensureTable, hmem]
  have hsel : (TableOperationsImpl.select env cache c options).1 = .error m := by
    simp [TableOperationsImpl.select, het, queryStep_fail env c _ _ _ r m hq hr hm hne]
  refine ⟨hsel, ?_, ?_, ?_, ?_, ?_, ?_, ?_, ?_⟩
  · rcases hs : TableOperationsImpl.select env cache c
        (some ({ options.getD {} with limit := some 1 })) with ⟨sres, scache, scalls⟩
    have h1 : sres = .error m := by
      have h2 : (TableOperationsImpl.select env cache c
          (some ({ options.getD {} with limit := some 1 }))).1 = .error m := by
        simp [TableOperationsImpl.select, het,
          queryStep_fail env c _ _ _ r m hq hr hm hne]
      rw [hs] at h2
      exact h2
    subst h1
    simp [TableOperationsImpl.selectOne, hs]
  · simp [TableOperationsImpl.insert, het, hv,
      queryStep_fail env c _ _ _ r m hq hr hm hne]
  · simp [TableOperationsImpl.insertMany, het, hvs,
      queryStep_fail env c _ _ _ r m hq hr hm hne]
  · simp [TableOperationsImpl.update, het,
      queryStep_fail env c _ _ _ r m hq hr hm hne]
  · simp [TableOperationsImpl.updateWhere, het,
      queryStep_fail env c _ _ _ r m hq hr hm hne]
  · simp [TableOperationsImpl.deleteWhere, het,
      queryStep_fail env c _ _ _ r m hq hr hm hne]
  · simp [TableOperationsImpl.count, het,
      queryStep_fail env c _ _ _ r m hq hr hm hne]
  · simp [TableOperationsImpl.deleteOp, het, DatabaseManager.query, hq, hr]

/-- C9 counterexample: at a query endpoint answering `success: false`,
`delete` returns the normal value `false` instead of propagating a
failure. -/
theorem C9_delete_counterexample :
    (TableOperationsImpl.deleteOp envQueryFail ["s.users"] usersCtx "42").1 =
      .ok false := by rfl

/-- C9 witness: the amended theorem applied at a concrete failing query
endpoint. -/
theorem C9_query_failure_propagation_witness :
    (TableOperationsImpl.select envQueryFail ["s.t"]
      { schemaName := "s", tableName := "t", shape := [] } none).1 =
      .error "boom" ∧
    (TableOperationsImpl.update envQueryFail ["s.t"]
      { schemaName := "s", tableName := "t", shape := [] } "42"
      badPayload).1 = .error "boom" := by
  have h := C9_query_failure_propagation envQueryFail ["s.t"]
    { schemaName := "s", tableName := "t", shape := [] }
    { success := false, error := some "boom" } "boom" none "42" [] [] []
    [] [] rfl rfl rfl (by decide) (by decide) rfl rfl
  exact ⟨h.1, h.2.2.2.2.1⟩

/-! ## C10 — `update`/`updateWhere` skip validation and forward verbatim -/

/-- C10: `update` and `updateWhere` forward the payload to the query
endpoint verbatim and never validate it: their outcome is independent of
the payload, and under a successful query endpoint they succeed even on
a payload that `insert` rejects locally. -/
theorem C10_update_skips_validation :
    ∀ (env : Env) (cache : List String) (c : TableOperationsImpl.Ctx)
      (id : String) (data data' : Payload) (w : List WhereCond)
      (r : ApiResponse),
    ((TableOperationsImpl.update env cache c id data).1 =
      (TableOperationsImpl.update env cache c id data').1) ∧
    ((TableOperationsImpl.updateWhere env cache c w data).1 =
      (TableOperationsImpl.updateWhere env cache c w data').1) ∧
    (cache.contains (c.schemaName ++ "." ++ c.tableName) = true →
      env.queryR = some r → r.success = true →
      TableOperationsImpl.update env cache c id data =
        (.ok r.rdata, cache,
         [.query c.schemaName c.tableName "update"
            (.updateQ [⟨"id", "eq", .str id⟩] data false)]) ∧
      TableOperationsImpl.updateWhere env cache c w data =
        (.ok (jsDataOr r.rdata (.arr [])), cache,
         [.query c.schemaName c.tableName "update" (.updateQ w data true)]) ∧
      (zodObjectParse c.shape data = none →
        (TableOperationsImpl.insert env cache c data).1 =
          .error "ZodError")) := by
  intro env cache c id data data' w r
  refine ⟨?_, ?_, ?_⟩
  · rcases het : DatabaseManager.ensureTable env cache c.schemaName
      c.tableName c.shape with ⟨res, cache', ecalls⟩
    cases res with
    | error e => simp [TableOperationsImpl.update, het]
    | ok u =>
        rcases h1 : TableOperationsImpl.queryStep env c "update"
          (.updateQ [⟨"id", "eq", .str id⟩] data false)
          "Update operation failed" with ⟨q1, c1⟩
        rcases h2 : TableOperationsImpl.queryStep env c "update"
          (.updateQ [⟨"id", "eq", .str id⟩] data' false)
          "Update operation failed" with ⟨q2, c2⟩
        have hq : q1 = q2 := by
          have h0 := queryStep_fst_indep env c "update"
            (.updateQ [⟨"id", "eq", .str id⟩] data false)
            (.updateQ [⟨"id", "eq", .str id⟩] data' false)
            "Update operation failed"
          rw [h1, h2] at h0
          exact h0
        subst hq
        cases q1 <;> simp [TableOperationsImpl.update, het, h1, h2]
  · rcases het : DatabaseManager.ensureTable env cache c.schemaName
      c.tableName c.shape with ⟨res, cache', ecalls⟩
    cases res with
    | error e => simp [TableOperationsImpl.updateWhere, het]
    | ok u =>
        rcases h1 : TableOperationsImpl.queryStep env c "update"
          (.updateQ w data true) "Update where operation failed" with ⟨q1, c1⟩
        rcases h2 : TableOperationsImpl.queryStep env c "update"
          (.updateQ w data' true) "Update where operation failed" with ⟨q2, c2⟩
        have hq : q1 = q2 := by
          have h0 := queryStep_fst_indep env c "update"
            (.updateQ w data true) (.updateQ w data' true)
            "Update where operation failed"
          rw [h1, h2] at h0
          exact h0
        subst hq
        cases q1 <;> simp [TableOperationsImpl.updateWhere, het, h1, h2]
  · intro hc hq hr
    have hmem : (c.schemaName ++ "." ++ c.tableName) ∈ cache := by simpa using hc
    have het : DatabaseManager.ensureTable env cache c.schemaName
        c.tableName c.shape = (.ok (), cache, []) := by
      simp [DatabaseManager.ensureTable, hmem]
    refine ⟨?_, ?_, ?_⟩
    · simp [TableOperationsImpl.update, het, TableOperationsImpl.queryStep,
        DatabaseManager.query, hq, hr]
    · simp [TableOperationsImpl.updateWhere, het, TableOperationsImpl.queryStep,
        DatabaseManager.query, hq, hr]
    · intro hv
      simp [TableOperationsImpl.insert, het, hv]

/-- C10 witness: with the table cached and a succeeding query endpoint,
`update` succeeds on the exact payload that `insert` rejects, forwarding
it verbatim. -/
theorem C10_update_skips_validation_witness :
    TableOperationsImpl.update envTableExists ["s.users"] usersCtx "42"
      badPayload =
      (.ok none, ["s.users"],
       [.query "s" "users" "update"
          (.updateQ [⟨"id", "eq", .str "42"⟩] badPayload false)]) ∧
    (TableOperationsImpl.insert envTableExists ["s.users"] usersCtx
      badPayload).1 = .error "ZodError" := by
  have h := (C10_update_skips_validation envTableExists ["s.users"] usersCtx
    "42" badPayload badPayload [] { success := true }).2.2
    (by decide) rfl rfl
  exact ⟨h.1, h.2.2 rfl⟩

/-! ## C4 — the check-then-act provisioning race -/

/-- C4: under the interleaving in which both first-time callers run
their existence check before either caches the key, the process issues
two create-table calls — the claim's bound of at most one outbound
create sequence is violated, because `createdTables` stores only
post-completion strings, not in-flight work.  A serial schedule does
produce a single create call. -/
theorem C4_race_two_creates :
    Concurrency.createCount
      (Concurrency.runSched Concurrency.freshEnv "s" "t" []
        [true, false, true, false] [] .start .start).2.2.2 = 2 ∧
    Concurrency.createCount
      (Concurrency.runSched Concurrency.freshEnv "s" "t" []
        [true, true, false] [] .start .start).2.2.2 = 1 := by
  constructor <;> rfl

end MetricsHub
